import Mathlib

set_option maxRecDepth 4000

/-!
Verification of the streaming/fallback gateway of the shoppingAI repository.

The gateway consists of three Next.js API routes plus a client-side SSE
decoder:
  * `frontend/pages/api/generate-content-stream.js` — the stream relay,
  * `frontend/pages/api/perplexity-search.js`       — the endpoint fallback resolver,
  * `frontend/pages/api/proxy-image.js`             — the asset proxy / validator.

Strings are embedded as `List Char`; JavaScript string operations
(`split`, `trim`, `startsWith`, `slice`) are embedded as structurally
recursive functions on character lists. External effects (fetch, the
millisecond clock `Date.now()`) are passed in explicitly as oracles.
-/

/-- Character-list view of a string literal. -/
def str (s : String) : List Char := s.data

/-- JavaScript `String.prototype.split` with a one-character separator
(`chunk.split('\n')` in the relay, `imagePath.split('?')` in the proxy). -/
def splitOnChar (sep : Char) : List Char → List (List Char)
  | [] => [[]]
  | c :: rest =>
    if c = sep then
      [] :: splitOnChar sep rest
    else
      match splitOnChar sep rest with
      | [] => [[c]]
      | a :: as => (c :: a) :: as

/-- JavaScript `line.trim() !== ''`: the line contains a non-whitespace
character. -/
def jsNonBlank (l : List Char) : Bool := l.any (fun c => !c.isWhitespace)

/-- The SSE event marker `"data: "` that the relay recognizes
(`line.startsWith('data: ')`). -/
def dataMarker : List Char := str "data: "

/-- One iteration of the relay's read loop on a decoded upstream text chunk
(`generate-content-stream.js`, lines 65–73): split the chunk on `'\n'`,
drop blank lines, and for every line starting with `"data: "` forward the
payload `line.slice(6)`.  There is no carry-over of a partial trailing
line into the next chunk. -/
def serverDecodeChunk (c : List Char) : List (List Char) :=
  ((splitOnChar '\n' c).filter jsNonBlank).filterMap
    (fun l => if List.isPrefixOf dataMarker l then some (l.drop 6) else none)

/-- The payloads the relay forwards over a whole sequence of upstream
chunks, in arrival order. -/
def serverDecodeChunks (cs : List (List Char)) : List (List Char) :=
  (cs.map serverDecodeChunk).flatten

/-- `JSON.stringify({ finished: true })`, the payload of the terminal frame
the relay synthesizes when the upstream stream ends (`done` branch). -/
def finishedPayload : List Char := str "\x7b\"finished\":true\x7d"

/-- `JSON.stringify({ error: msg })` for the relay's in-band error frames. -/
def jsonErrorPayload (msg : List Char) : List Char :=
  str "\x7b\"error\":\"" ++ msg ++ str "\"\x7d"

/-- Decimal rendering of a natural number, as JavaScript template literals
produce for `${n}`. -/
def natChars (n : Nat) : List Char := Nat.toDigits 10 n

/-- Payload of the error frame for a non-success upstream status
(`API error: ${response.status}`). -/
def apiErrorPayload (n : Nat) : List Char :=
  jsonErrorPayload (str "API error: " ++ natChars n)

/-- Payload of the error frame for missing `topic`/`audience`. -/
def missingFieldsPayload : List Char :=
  jsonErrorPayload (str "Missing required fields")

/-- Payload of the error frame emitted when `fetch` to the backend throws. -/
def connectFailPayload : List Char :=
  jsonErrorPayload (str "Failed to connect to backend")

/-- Payload of the error frame emitted when reading the upstream body
throws mid-stream. -/
def streamErrorPayload : List Char :=
  jsonErrorPayload (str "Stream processing error")

/-- HTTP method of an inbound request. -/
inductive Method
  | GET
  | HEAD
  | POST
  | other
deriving DecidableEq

/-- What the upstream content-generation endpoint does for one relay
session: the connection attempt throws, the response has a non-success
status, or a body stream is delivered as a sequence of text chunks,
optionally failing (throwing) after the listed chunks instead of ending
cleanly. -/
inductive UpstreamStream
  | connectFail
  | rejected (status : Nat)
  | stream (chunks : List (List Char)) (midErr : Bool)
deriving DecidableEq

/-- Observable outcome of one call to the streaming route: HTTP status,
`Content-Type` header, the payloads of the `data: …\n\n` blocks written,
and whether the backend was contacted at all. -/
structure StreamResp where
  status : Nat
  contentType : List Char
  frames : List (List Char)
  calledUpstream : Bool
deriving DecidableEq

/-- `text/event-stream`, the content type the route sets for streaming. -/
def sseContentType : List Char := str "text/event-stream"

/-- Shallow embedding of the `generate-content-stream.js` handler.
`topic`/`audience` are the request-body fields (`[]` models a missing or
empty field, both falsy in JavaScript); `up` is the upstream world. -/
def generateContentStream (m : Method) (topic audience : List Char)
    (up : UpstreamStream) : StreamResp :=
  match m with
  | .POST =>
    if topic.isEmpty || audience.isEmpty then
      ⟨200, sseContentType, [missingFieldsPayload], false⟩
    else
      match up with
      | .connectFail => ⟨200, sseContentType, [connectFailPayload], true⟩
      | .rejected n => ⟨200, sseContentType, [apiErrorPayload n], true⟩
      | .stream chunks midErr =>
        ⟨200, sseContentType,
          serverDecodeChunks chunks ++
            [if midErr then streamErrorPayload else finishedPayload],
          true⟩
  | _ => ⟨405, str "application/json", [], false⟩

/-- Wire encoding of one upstream SSE frame with payload `p`:
`data: ${p}\n\n`, the shape both the backend and the relay emit. -/
def encodeSSE (p : List Char) : List Char := dataMarker ++ p ++ str "\n\n"

-- Basic evaluation sanity checks for the embedding.
example : splitOnChar '\n' (str "data: X\n\n") = [str "data: X", [], []] := by decide
example : serverDecodeChunk (str "data: X\n\n") = [str "X"] := by decide
example : natChars 503 = str "503" := by decide

/-! ## Endpoint fallback resolver (`perplexity-search.js`) -/

/-- The two protocol variants tried against each candidate address:
`POST ${url}/api/tool` and `POST ${url}/api/prompt`. -/
inductive Variant
  | tool
  | prompt
deriving DecidableEq

/-- Result of one `fetch` attempt: a success response whose JSON body is
`payload`, a non-success status, or a thrown transport error with the
given `message`. -/
inductive AttemptResult
  | ok (payload : List Char)
  | httpErr (status : Nat)
  | transportErr (msg : List Char)
deriving DecidableEq

/-- `true` exactly when the attempt had `response.ok`. -/
def attemptOk : AttemptResult → Bool
  | .ok _ => true
  | _ => false

/-- The network world the resolver runs against: what one `fetch` of the
given variant against the given base address returns.  (The request body
also carries `query`/`recency`, which are fixed for the whole handler
call and therefore absorbed into the oracle.) -/
abbrev SearchWorld := List Char → Variant → AttemptResult

/-- `Prompt endpoint responded with status: ${promptResponse.status}`, the
message of the error thrown when the prompt variant returns non-success. -/
def promptStatusMsg (n : Nat) : List Char :=
  str "Prompt endpoint responded with status: " ++ natChars n

/-- Message recorded in `lastError` when a candidate's prompt-variant
attempt fails (`none` when it succeeded, which never reaches `lastError`). -/
def promptFailMsg : AttemptResult → Option (List Char)
  | .ok _ => none
  | .httpErr n => some (promptStatusMsg n)
  | .transportErr m => some m

/-- Result of the resolver loop: the first success payload, or exhaustion
carrying `lastError?.message`. -/
inductive SearchOutcome
  | success (payload : List Char)
  | exhausted (lastErr : Option (List Char))
deriving DecidableEq

/-- The `for (const mcpUrl of urlsToTry)` loop of `perplexity-search.js`
(lines 33–91), instrumented with the list of (address, variant) attempts
actually made, in order.  For each address the tool variant is tried
first; its failure is only logged, never recorded.  A prompt-variant
non-success throws `promptStatusMsg`, a prompt transport error propagates,
and either becomes the new `lastError`; then the loop advances. -/
def resolveGo (world : SearchWorld) :
    List (List Char) → Option (List Char) → List (List Char × Variant) →
    SearchOutcome × List (List Char × Variant)
  | [], lastErr, tr => (.exhausted lastErr, tr)
  | u :: rest, lastErr, tr =>
    match world u .tool with
    | .ok d => (.success d, tr ++ [(u, .tool)])
    | _ =>
      match world u .prompt with
      | .ok d => (.success d, tr ++ [(u, .tool), (u, .prompt)])
      | .httpErr n =>
        resolveGo world rest (some (promptStatusMsg n)) (tr ++ [(u, .tool), (u, .prompt)])
      | .transportErr m =>
        resolveGo world rest (some m) (tr ++ [(u, .tool), (u, .prompt)])

/-- The statically configured fallback addresses tried after the
environment-supplied one. -/
def fixedUrls : List (List Char) :=
  [str "http://shopai-perplexity:3500", str "http://perplexity:3500",
   str "http://localhost:3500"]

/-- `urlsToTry`: the environment URL (when set and non-empty — `.filter(Boolean)`)
followed by the three static candidates. -/
def urlsToTry (env : Option (List Char)) : List (List Char) :=
  (match env with | some u => [u] | none => []) ++ fixedUrls

/-- `All connection attempts failed. Last error: ${lastError?.message}`
(the template renders a missing `lastError` as `undefined`). -/
def failedSearchMsg (lastErr : Option (List Char)) : List Char :=
  str "All connection attempts failed. Last error: " ++ lastErr.getD (str "undefined")

/-- `Failed to search with Perplexity: ${err.message}`, the `error` field
of the total-failure response body. -/
def searchErrorField (m : List Char) : List Char :=
  str "Failed to search with Perplexity: " ++ m

/-- `JSON.stringify(process.env.PERPLEXITY_MCP_URL || ['None configured'])`
as interpolated into the troubleshooting text. -/
def envJson : Option (List Char) → List Char
  | some u => str "\"" ++ u ++ str "\""
  | none => str "[\"None configured\"]"

/-- The `answer` field of the total-failure response: the troubleshooting
markdown with the error message and environment URL interpolated. -/
def troubleshootingAnswer (env : Option (List Char)) (msg : List Char) : List Char :=
  str "# Connection Error\n\nUnable to get search results for your query. Error: " ++ msg ++
  str "\n\n## Troubleshooting Steps:\n\n1. Make sure the Perplexity server is running\n   - Check if container is running with `docker ps`\n   - If not, restart it with `docker-compose up -d perplexity`\n\n2. Check Docker network connectivity\n   - Tried these URLs: " ++ envJson env ++
  str "\n   - Try restarting all containers: `docker-compose down && docker-compose up -d`\n\n3. Check container names\n   - Run `docker ps` to verify the actual container names\n   - Update docker-compose.yml if container names don\x27t match URLs"

/-- Response body of the search route. -/
inductive SearchBody
  | methodNotAllowed
  | missingQuery
  | success (payload : List Char)
  | mockFailure (error : List Char) (mock : Bool) (answer : List Char)
deriving DecidableEq

/-- Observable outcome of one call to the search route: HTTP status, JSON
body, and the (address, variant) upstream attempts made, in order. -/
structure SearchResp where
  status : Nat
  body : SearchBody
  trace : List (List Char × Variant)
deriving DecidableEq

/-- Shallow embedding of the `perplexity-search.js` handler.  `query = []`
models a missing or empty (falsy) query; `env` is
`process.env.PERPLEXITY_MCP_URL`. -/
def perplexitySearch (m : Method) (query : List Char)
    (env : Option (List Char)) (world : SearchWorld) : SearchResp :=
  match m with
  | .POST =>
    if query.isEmpty then
      ⟨400, .missingQuery, []⟩
    else
      match resolveGo world (urlsToTry env) none [] with
      | (.success d, tr) => ⟨200, .success d, tr⟩
      | (.exhausted lastErr, tr) =>
        let msg := failedSearchMsg lastErr
        ⟨500, .mockFailure (searchErrorField msg) true (troubleshootingAnswer env msg), tr⟩
  | _ => ⟨405, .methodNotAllowed, []⟩

/-! ## Asset proxy and validator (`proxy-image.js`) -/

/-- `imagePath.split('?')[0]`: strip any query component from the
caller-supplied path. -/
def cleanPath (p : List Char) : List Char := (splitOnChar '?' p).headD []

/-- The upstream fetch URL with the cache-defeating token appended:
`${backendBaseUrl}${cleanImagePath}?t=${Date.now()}` (lines 24–30).  The
clock reading `now` is the only varying component. -/
def cacheBustedUrl (backend clean : List Char) (now : Nat) : List Char :=
  backend ++ clean ++ str "?t=" ++ natChars now

/-- What the origin store returns for one fetch: a thrown transport error,
or a response with status, status text, an optional `content-type` header
and a body of `byteLength` bytes. -/
inductive ProxyUpstream
  | fetchThrew (msg : List Char)
  | resp (status : Nat) (statusText : List Char)
      (contentType : Option (List Char)) (byteLength : Nat)
deriving DecidableEq

/-- `response.ok` of the Fetch API: status in the range 200–299. -/
def jsOk (status : Nat) : Bool := 200 ≤ status && status < 300

/-- The three cache-disabling headers set on a GET response. -/
def cacheHeaders : List (List Char × List Char) :=
  [(str "Cache-Control", str "no-cache, no-store, must-revalidate"),
   (str "Pragma", str "no-cache"),
   (str "Expires", str "0")]

/-- Body of a proxy response: a JSON error message, raw image bytes of the
given length, or the empty body of a HEAD response. -/
inductive ProxyBody
  | jsonMessage (msg : List Char)
  | bytes (len : Nat)
  | empty
deriving DecidableEq

/-- Observable outcome of one call to the image proxy: status, response
headers in the order they are set, body, and the upstream URL fetched
(`none` when no fetch was made). -/
structure ProxyResp where
  status : Nat
  headers : List (List Char × List Char)
  body : ProxyBody
  fetchedUrl : Option (List Char)
deriving DecidableEq

/-- Shallow embedding of the `proxy-image.js` handler.  `imagePath = none`
models a missing (falsy) query parameter, `now` is `Date.now()`, and
`world` maps the fetched URL to the origin store's behaviour. -/
def proxyImage (m : Method) (imagePath : Option (List Char))
    (backend : List Char) (now : Nat)
    (world : List Char → ProxyUpstream) : ProxyResp :=
  if m ≠ .GET ∧ m ≠ .HEAD then
    ⟨405, [], .jsonMessage (str "Method not allowed"), none⟩
  else
    match imagePath with
    | none => ⟨400, [], .jsonMessage (str "Missing imagePath parameter"), none⟩
    | some p =>
      let url := cacheBustedUrl backend (cleanPath p) now
      match world url with
      | .fetchThrew msg =>
        ⟨500, [], .jsonMessage (str "Failed to proxy image: " ++ msg), some url⟩
      | .resp status statusText ct len =>
        if !jsOk status then
          ⟨status, [],
            .jsonMessage (str "Failed to fetch image: " ++ natChars status ++
              str " " ++ statusText),
            some url⟩
        else if m = .HEAD then
          ⟨200, [(str "Content-Type", ct.getD (str "image/png"))], .empty, some url⟩
        else
          let hs := (str "Content-Type", ct.getD (str "image/png")) :: cacheHeaders
          if len < 100 then
            ⟨500, hs, .jsonMessage (str "Invalid image data received"), some url⟩
          else
            ⟨200, hs, .bytes len, some url⟩

-- Evaluation sanity checks.
example : cleanPath (str "/img/a.png?x=1") = str "/img/a.png" := by decide
example :
    (perplexitySearch .POST (str "q") none
      (fun _ _ => .transportErr (str "ECONNREFUSED"))).status = 500 := by decide

/-! ## Concrete worlds used in counterexamples and witnesses -/

/-- A search world in which every attempt throws the same transport error. -/
def wAllFail : SearchWorld := fun _ _ => .transportErr (str "connect ECONNREFUSED")

/-- A search world in which every attempt fails with a transport error
naming the address and variant attempted, so the failures are pairwise
distinct and traceable. -/
def wDistinctFail : SearchWorld := fun u v =>
  .transportErr (str "fail " ++ u ++
    (match v with | .tool => str " tool" | .prompt => str " prompt"))

/-- An origin store that answers every fetch with `200 OK`, content type
`image/png` and a 10000-byte body. -/
def wImgOk : List Char → ProxyUpstream :=
  fun _ => .resp 200 (str "OK") (some (str "image/png")) 10000

/-- `true` exactly on the `mockFailure` body shape with its `mock` flag set. -/
def isMockBody : SearchBody → Bool
  | .mockFailure _ m _ => m
  | _ => false

/-- The `error` field of a `mockFailure` body (`[]` on other shapes). -/
def searchBodyError : SearchBody → List Char
  | .mockFailure e _ _ => e
  | _ => []

/-- `needle` occurs as a contiguous substring of `hay`. -/
def containsSeq (needle : List Char) : List Char → Bool
  | [] => List.isPrefixOf needle []
  | c :: rest => List.isPrefixOf needle (c :: rest) || containsSeq needle rest

/-- The (address, variant) pairs one address contributes, tool first. -/
def attemptPair (u : List Char) : List (List Char × Variant) :=
  [(u, .tool), (u, .prompt)]

/-- All (address, variant) pairs an address list contributes, in attempt
order. -/
def attemptsOf : List (List Char) → List (List Char × Variant)
  | [] => []
  | u :: us => (u, .tool) :: (u, .prompt) :: attemptsOf us

/-- The value `lastError` holds after the loop has run over `urls` with
every attempt failing: each address overwrites it with its prompt-variant
failure message, so only the final one survives. -/
def lastPromptErr (world : SearchWorld) : List (List Char) → Option (List Char) → Option (List Char)
  | [], dflt => dflt
  | u :: us, _ => lastPromptErr world us (promptFailMsg (world u .prompt))

/-- A world where address `http://b` succeeds on its tool variant and
every other attempt fails. -/
def wShortCircuit : SearchWorld := fun u v =>
  if u = str "http://b" then
    match v with
    | .tool => .ok (str "payload B")
    | .prompt => .httpErr 500
  else .transportErr (str "down")

/-- The failure message the handler reports when every candidate fails:
`lastError` ends up holding the localhost (final) address's prompt-variant
failure. -/
def localhostFailMsg (world : SearchWorld) : List Char :=
  failedSearchMsg (promptFailMsg (world (str "http://localhost:3500") .prompt))

/-- Big-endian decimal rendering by repeated division, used to reason
about `Nat.toDigits`. -/
def decimalChars (n : Nat) : List Char :=
  if h : n < 10 then [Nat.digitChar n]
  else decimalChars (n / 10) ++ [Nat.digitChar (n % 10)]
termination_by n
decreasing_by exact Nat.div_lt_self (by omega) (by omega)

/-- Numeric value of a decimal digit character. -/
def digitVal (c : Char) : Nat := c.toNat - 48

/-! ## Client-side buffered FrameCodec decoder (part_003, `handleSubmit`) -/

/-- JavaScript `buffer.split('\n\n')` as used by the client-side SSE
decoder: split on the two-character blank-line separator, left-greedy and
non-overlapping. -/
def splitNN : List Char → List (List Char)
  | [] => [[]]
  | [c] => [[c]]
  | c :: c2 :: rest =>
    if c = '\n' ∧ c2 = '\n' then [] :: splitNN rest
    else
      match splitNN (c2 :: rest) with
      | [] => [[c]]
      | a :: as => (c :: a) :: as

/-- One step of the client's buffered decode loop: append the chunk to the
carry-over buffer, split on blank lines, emit the complete messages and
keep the trailing (possibly incomplete) part as the new buffer
(`const messages = buffer.split('\n\n'); buffer = messages.pop() || ''`). -/
def clientStep (acc : List (List Char) × List Char) (c : List Char) :
    List (List Char) × List Char :=
  (acc.1 ++ (splitNN (acc.2 ++ c)).dropLast, (splitNN (acc.2 ++ c)).getLastD [])

/-- The client's whole decode run over a sequence of received chunks: the
complete messages emitted, in order, and the final leftover buffer
(discarded when the stream ends). -/
def clientRun (chunks : List (List Char)) : List (List Char) × List Char :=
  chunks.foldl clientStep ([], [])

/-- The frames the client decodes: complete messages starting with
`data: `, taking the payload `message.substring(6)`. -/
def clientFrames (chunks : List (List Char)) : List (List Char) :=
  (clientRun chunks).1.filterMap
    (fun m => if List.isPrefixOf dataMarker m then some (m.drop 6) else none)

/-! ## Claim theorems -/

/-- Claim C1 (code bug): decoding via the relay is NOT chunk-boundary
independent.  The upstream bytes `data: {"chunk":"hi"}\n\n` contain one
logical frame; delivered as the two chunks `da` / `ta: {"chunk":"hi"}\n\n`
the relay's per-chunk line splitting (no carry-over buffer) forwards zero
frames, while the same bytes delivered as a single chunk yield the one
frame.  The spec (§4.1) requires buffering of incomplete trailing data,
and the repository's own client-side decoder does buffer. -/
theorem relay_decode_is_chunk_boundary_dependent :
    serverDecodeChunks [str "da", str "ta: \x7b\"chunk\":\"hi\"\x7d\n\n"] = [] ∧
    serverDecodeChunks [str "data: \x7b\"chunk\":\"hi\"\x7d\n\n"]
      = [str "\x7b\"chunk\":\"hi\"\x7d"] := by decide

/-- Claim C2 (counterexample): when the upstream itself sends a `finished`
frame and then closes cleanly, the relay forwards it AND appends its own
synthesized `finished` frame, so the client observes two terminal
`finished` frames, not exactly one. -/
theorem relay_duplicates_upstream_finished_frame :
    (generateContentStream .POST (str "laptops") (str "budget buyers")
        (.stream [str "data: \x7b\"finished\":true\x7d\n\n"] false)).frames
      = [finishedPayload, finishedPayload] ∧
    ((generateContentStream .POST (str "laptops") (str "budget buyers")
        (.stream [str "data: \x7b\"finished\":true\x7d\n\n"] false)).frames.count
      finishedPayload) = 2 := by decide

/-- Claim C3 (counterexample): when every candidate address and variant
fails, the handler does return the informational
`{error, mock: true, answer}` payload, but with HTTP status **500**, not
200. -/
theorem search_total_failure_status_500 :
    (perplexitySearch .POST (str "best ssd") none wAllFail).status = 500 ∧
    (perplexitySearch .POST (str "best ssd") none wAllFail).status ≠ 200 ∧
    isMockBody (perplexitySearch .POST (str "best ssd") none wAllFail).body = true := by
  decide

/-- Claim C4 (counterexample): with no environment URL the resolver
attempts all 6 (address, variant) pairs, each failing with a distinct
message, yet the aggregate failure names only the final attempt (the last
address's prompt variant); the five earlier failures appear nowhere in
the outcome. -/
theorem search_aggregate_mentions_only_last_failure :
    (perplexitySearch .POST (str "q") none wDistinctFail).trace.length = 6 ∧
    containsSeq (str "fail http://localhost:3500 prompt")
      (searchBodyError (perplexitySearch .POST (str "q") none wDistinctFail).body)
      = true ∧
    containsSeq (str "fail http://shopai-perplexity:3500 tool")
      (searchBodyError (perplexitySearch .POST (str "q") none wDistinctFail).body)
      = false ∧
    containsSeq (str "fail http://shopai-perplexity:3500 prompt")
      (searchBodyError (perplexitySearch .POST (str "q") none wDistinctFail).body)
      = false ∧
    containsSeq (str "fail http://perplexity:3500 prompt")
      (searchBodyError (perplexitySearch .POST (str "q") none wDistinctFail).body)
      = false := by decide

/-! ## Helper lemmas about the wire framing -/

theorem splitOnChar_not_mem_append (sep : Char) (l r : List Char) (h : sep ∉ l) :
    splitOnChar sep (l ++ sep :: r) = l :: splitOnChar sep r := by
  induction l with
  | nil => simp [splitOnChar]
  | cons c cs ih =>
    have h1 : ¬(sep = c ∨ sep ∈ cs) := by simpa [List.mem_cons] using h
    obtain ⟨h1a, h1b⟩ := not_or.mp h1
    have hc : c ≠ sep := fun hh => h1a hh.symm
    rw [List.cons_append]
    simp only [splitOnChar, if_neg hc, ih h1b]

theorem isPrefixOf_append_self (xs ys : List Char) :
    List.isPrefixOf xs (xs ++ ys) = true := by
  induction xs with
  | nil => simp
  | cons c cs ih => simp [List.isPrefixOf, ih]

/-- Decoding one well-formed upstream frame `data: ${p}\n\n` (payload free
of newlines) delivered as a whole chunk forwards exactly the payload. -/
theorem serverDecodeChunk_encodeSSE (p : List Char) (hp : ('\n' : Char) ∉ p) :
    serverDecodeChunk (encodeSSE p) = [p] := by
  have h1 : ('\n' : Char) ∉ dataMarker ++ p := by
    intro hm
    rcases List.mem_append.mp hm with h | h
    · exact absurd h (by decide)
    · exact hp h
  have h2 : encodeSSE p = (dataMarker ++ p) ++ '\n' :: ['\n'] :=
    (List.append_assoc dataMarker p (str "\n\n")).symm
  have h3 : splitOnChar '\n' (['\n'] : List Char) = [[], []] := by decide
  have h5 : jsNonBlank (dataMarker ++ p) = true := by
    have hd : dataMarker.any (fun c => !c.isWhitespace) = true := by decide
    simp [jsNonBlank, List.any_append, hd]
  have h6 : List.isPrefixOf dataMarker (dataMarker ++ p) = true :=
    isPrefixOf_append_self _ _
  have h7 : (dataMarker ++ p).drop 6 = p := rfl
  rw [serverDecodeChunk, h2, splitOnChar_not_mem_append '\n' (dataMarker ++ p) ['\n'] h1, h3]
  simp [List.filter, List.filterMap, h5, h6, h7, jsNonBlank]

theorem serverDecodeChunks_cons (c : List Char) (cs : List (List Char)) :
    serverDecodeChunks (c :: cs) = serverDecodeChunk c ++ serverDecodeChunks cs := rfl

/-- Decoding a stream of well-formed upstream frames delivered one frame
per chunk recovers exactly the payload sequence. -/
theorem serverDecodeChunks_encode (ps : List (List Char))
    (hp : ∀ p ∈ ps, ('\n' : Char) ∉ p) :
    serverDecodeChunks (ps.map encodeSSE) = ps := by
  induction ps with
  | nil => rfl
  | cons p ps ih =>
    rw [List.map_cons, serverDecodeChunks_cons,
      serverDecodeChunk_encodeSSE p (hp p (List.mem_cons_self p ps)),
      ih (fun q hq => hp q (List.mem_cons_of_mem p hq))]
    rfl

/-- Claim C2 (amended): for a session whose upstream delivers frames
F1..Fk (one well-formed `data:` block per chunk) and then closes cleanly,
the client observes F1..Fk in arrival order followed by exactly one
synthesized `finished` frame appended by the relay.  The relay does not
deduplicate: an upstream `finished` frame among F1..Fk is forwarded as
well, in addition to the synthesized one. -/
theorem relay_appends_exactly_one_finished_frame
    (topic audience : List Char) (ps : List (List Char))
    (ht : topic ≠ []) (ha : audience ≠ [])
    (hp : ∀ p ∈ ps, ('\n' : Char) ∉ p) :
    (generateContentStream .POST topic audience
        (.stream (ps.map encodeSSE) false)).frames
      = ps ++ [finishedPayload] := by
  obtain ⟨c, cs, rfl⟩ := List.exists_cons_of_ne_nil ht
  obtain ⟨d, ds, rfl⟩ := List.exists_cons_of_ne_nil ha
  simp [generateContentStream, serverDecodeChunks_encode ps hp]

/-- Witness for `relay_appends_exactly_one_finished_frame` at a concrete
two-frame session. -/
theorem relay_appends_exactly_one_finished_frame_witness :
    (generateContentStream .POST (str "laptops") (str "budget")
        (.stream [encodeSSE (str "\x7b\"chunk\":\"hi\"\x7d")] false)).frames
      = [str "\x7b\"chunk\":\"hi\"\x7d", finishedPayload] := by
  have h := relay_appends_exactly_one_finished_frame (str "laptops") (str "budget")
    [str "\x7b\"chunk\":\"hi\"\x7d"] (by decide) (by decide) (by decide)
  exact h.trans (by decide)

/-- Claim C6: both entry points fail fast on invalid input with no
upstream call — a streaming request with missing (falsy) `topic` or
`audience` produces the single in-band error frame and never contacts the
backend, and a search request with an empty query returns the 400
`Missing search query` error with an empty attempt trace. -/
theorem entry_points_fail_fast_on_invalid_input :
    (∀ (topic audience : List Char) (up : UpstreamStream),
      topic = [] ∨ audience = [] →
      generateContentStream .POST topic audience up
        = ⟨200, sseContentType, [missingFieldsPayload], false⟩) ∧
    (∀ (env : Option (List Char)) (world : SearchWorld),
      perplexitySearch .POST [] env world = ⟨400, .missingQuery, []⟩) := by
  constructor
  · rintro t a up (rfl | rfl) <;> simp [generateContentStream]
  · intro env world
    rfl

/-- Witness for `entry_points_fail_fast_on_invalid_input` at concrete
invalid requests. -/
theorem entry_points_fail_fast_on_invalid_input_witness :
    generateContentStream .POST [] (str "budget") .connectFail
        = ⟨200, sseContentType, [missingFieldsPayload], false⟩ ∧
    perplexitySearch .POST [] none wAllFail = ⟨400, .missingQuery, []⟩ :=
  ⟨entry_points_fail_fast_on_invalid_input.1 [] (str "budget") .connectFail (Or.inl rfl),
   entry_points_fail_fast_on_invalid_input.2 none wAllFail⟩

/-- Claim C10: every POST to the streaming route is answered with HTTP
status 200 and `Content-Type: text/event-stream`, and every failure mode
— missing input, failed connection, upstream non-success status, or a
mid-stream read error — is delivered only as an in-band error frame on
that 200 stream, never as an HTTP error status. -/
theorem stream_endpoint_200_with_in_band_errors
    (topic audience : List Char) (up : UpstreamStream) :
    (generateContentStream .POST topic audience up).status = 200 ∧
    (generateContentStream .POST topic audience up).contentType = sseContentType ∧
    (topic = [] ∨ audience = [] →
      (generateContentStream .POST topic audience up).frames = [missingFieldsPayload]) ∧
    (topic ≠ [] → audience ≠ [] → up = .connectFail →
      (generateContentStream .POST topic audience up).frames = [connectFailPayload]) ∧
    (∀ n, topic ≠ [] → audience ≠ [] → up = .rejected n →
      (generateContentStream .POST topic audience up).frames = [apiErrorPayload n]) ∧
    (∀ chunks, topic ≠ [] → audience ≠ [] → up = .stream chunks true →
      (generateContentStream .POST topic audience up).frames
        = serverDecodeChunks chunks ++ [streamErrorPayload]) := by
  refine ⟨?_, ?_, ?_, ?_, ?_, ?_⟩
  · by_cases h : (topic.isEmpty || audience.isEmpty) = true <;>
      cases up <;> simp_all [generateContentStream]
  · by_cases h : (topic.isEmpty || audience.isEmpty) = true <;>
      cases up <;> simp_all [generateContentStream]
  · rintro (rfl | rfl) <;> simp [generateContentStream]
  · rintro ht ha rfl
    simp [generateContentStream, List.isEmpty_eq_false.mpr ht,
      List.isEmpty_eq_false.mpr ha]
  · rintro n ht ha rfl
    simp [generateContentStream, List.isEmpty_eq_false.mpr ht,
      List.isEmpty_eq_false.mpr ha]
  · rintro chunks ht ha rfl
    simp [generateContentStream, List.isEmpty_eq_false.mpr ht,
      List.isEmpty_eq_false.mpr ha]

/-- Witness for `stream_endpoint_200_with_in_band_errors`: an upstream
rejection with status 503 yields a 200 SSE response whose only frame is
the in-band `API error: 503` payload. -/
theorem stream_endpoint_200_with_in_band_errors_witness :
    (generateContentStream .POST (str "laptops") (str "budget")
        (.rejected 503)).status = 200 ∧
    (generateContentStream .POST (str "laptops") (str "budget")
        (.rejected 503)).frames = [str "\x7b\"error\":\"API error: 503\"\x7d"] := by
  have h := stream_endpoint_200_with_in_band_errors (str "laptops") (str "budget")
    (.rejected 503)
  refine ⟨h.1, ?_⟩
  have h2 := h.2.2.2.2.1 503 (by decide) (by decide) rfl
  exact h2.trans (by decide)

/-! ## Resolver theorems -/



/-- On a non-empty address list the surviving `lastError` is exactly the
last address's prompt-variant failure message. -/
theorem lastPromptErr_getLast (world : SearchWorld) :
    ∀ (urls : List (List Char)) (dflt : Option (List Char)) (u : List Char),
      urls.getLast? = some u →
      lastPromptErr world urls dflt = promptFailMsg (world u .prompt) := by
  intro urls
  induction urls with
  | nil => intro dflt u hu; simp at hu
  | cons x xs ih =>
    intro dflt u hu
    cases xs with
    | nil =>
      have hx : ([x] : List (List Char)).getLast? = some x := rfl
      rw [hx] at hu
      injection hu with h
      subst h
      rfl
    | cons y ys =>
      rw [List.getLast?_cons_cons] at hu
      exact ih (promptFailMsg (world x .prompt)) u hu

/-- When every attempt against every listed address fails, the loop
attempts all (address, variant) pairs in order and ends exhausted, with
`lastError` folded through `lastPromptErr`. -/
theorem resolveGo_allFail (world : SearchWorld) :
    ∀ (urls : List (List Char)),
      (∀ v ∈ urls, attemptOk (world v .tool) = false ∧
        attemptOk (world v .prompt) = false) →
      ∀ (lastErr : Option (List Char)) (tr : List (List Char × Variant)),
      resolveGo world urls lastErr tr
        = (.exhausted (lastPromptErr world urls lastErr), tr ++ attemptsOf urls) := by
  intro urls
  induction urls with
  | nil =>
    intro _ lastErr tr
    simp [resolveGo, attemptsOf, lastPromptErr]
  | cons x xs ih =>
    intro hall lastErr tr
    obtain ⟨hx1, hx2⟩ := hall x (List.mem_cons_self x xs)
    have hxs : ∀ v ∈ xs, attemptOk (world v .tool) = false ∧
        attemptOk (world v .prompt) = false :=
      fun v hv => hall v (List.mem_cons_of_mem x hv)
    rcases hxt : world x .tool with d | n | m
    · exact absurd (hxt ▸ hx1) (by simp [attemptOk])
    · rcases hxp : world x .prompt with d' | n' | m'
      · exact absurd (hxp ▸ hx2) (by simp [attemptOk])
      · simp only [resolveGo, hxt, hxp]
        rw [ih hxs]
        simp [lastPromptErr, hxp, promptFailMsg, attemptsOf, List.append_assoc]
      · simp only [resolveGo, hxt, hxp]
        rw [ih hxs]
        simp [lastPromptErr, hxp, promptFailMsg, attemptsOf, List.append_assoc]
    · rcases hxp : world x .prompt with d' | n' | m'
      · exact absurd (hxp ▸ hx2) (by simp [attemptOk])
      · simp only [resolveGo, hxt, hxp]
        rw [ih hxs]
        simp [lastPromptErr, hxp, promptFailMsg, attemptsOf, List.append_assoc]
      · simp only [resolveGo, hxt, hxp]
        rw [ih hxs]
        simp [lastPromptErr, hxp, promptFailMsg, attemptsOf, List.append_assoc]

/-- Claim C4 (amended): when every candidate (address, variant) pair
fails, the resolver does attempt every pair in order, but the aggregate
failure outcome records only the most recent failure — the last address's
prompt-variant failure message — not one entry per pair.  Tool-variant
failures are never recorded at all. -/
theorem resolver_exhausted_keeps_only_last_error
    (world : SearchWorld) (urls : List (List Char)) (u : List Char)
    (hall : ∀ v ∈ urls, attemptOk (world v .tool) = false ∧
      attemptOk (world v .prompt) = false)
    (hu : urls.getLast? = some u)
    (lastErr : Option (List Char)) (tr : List (List Char × Variant)) :
    resolveGo world urls lastErr tr
      = (.exhausted (promptFailMsg (world u .prompt)), tr ++ attemptsOf urls) := by
  rw [resolveGo_allFail world urls hall lastErr tr,
    lastPromptErr_getLast world urls lastErr u hu]

/-- Witness for `resolver_exhausted_keeps_only_last_error`: two addresses,
four distinct failures, and the outcome keeps only the message of the
last address's prompt attempt. -/
theorem resolver_exhausted_keeps_only_last_error_witness :
    resolveGo wDistinctFail [str "http://a", str "http://b"] none []
      = (.exhausted (some (str "fail http://b prompt")),
         [(str "http://a", .tool), (str "http://a", .prompt),
          (str "http://b", .tool), (str "http://b", .prompt)]) := by
  have h := resolver_exhausted_keeps_only_last_error wDistinctFail
    [str "http://a", str "http://b"] (str "http://b") (by decide) (by decide) none []
  exact h.trans (by decide)

/-- Claim C5: for every candidate list, the resolver tries the tool
variant of each address first and the prompt variant of the same address
only when the tool variant fails; the first successful attempt
short-circuits resolution — its payload is returned and no later address
is attempted.  The attempt trace is exactly the failing prefix's pairs
followed by the succeeding attempt. -/
theorem resolver_short_circuits_on_first_success
    (world : SearchWorld) (u d : List Char) (rest : List (List Char)) :
    ∀ (pre : List (List Char)),
      (∀ x ∈ pre, attemptOk (world x .tool) = false ∧
        attemptOk (world x .prompt) = false) →
      ∀ (lastErr : Option (List Char)) (tr : List (List Char × Variant)),
      (world u .tool = .ok d →
        resolveGo world (pre ++ u :: rest) lastErr tr
          = (.success d, tr ++ attemptsOf pre ++ [(u, .tool)])) ∧
      (attemptOk (world u .tool) = false → world u .prompt = .ok d →
        resolveGo world (pre ++ u :: rest) lastErr tr
          = (.success d, tr ++ attemptsOf pre ++ attemptPair u)) := by
  intro pre
  induction pre with
  | nil =>
    intro _ lastErr tr
    constructor
    · intro h
      simp [resolveGo, h, attemptsOf]
    · intro hf h
      rcases hw : world u .tool with d' | n | m
      · exact absurd (hw ▸ hf) (by simp [attemptOk])
      · simp [resolveGo, hw, h, attemptsOf, attemptPair]
      · simp [resolveGo, hw, h, attemptsOf, attemptPair]
  | cons x xs ih =>
    intro hpre lastErr tr
    obtain ⟨hx1, hx2⟩ := hpre x (List.mem_cons_self x xs)
    have hxs : ∀ y ∈ xs, attemptOk (world y .tool) = false ∧
        attemptOk (world y .prompt) = false :=
      fun y hy => hpre y (List.mem_cons_of_mem x hy)
    suffices hstep : ∃ e, resolveGo world ((x :: xs) ++ u :: rest) lastErr tr
        = resolveGo world (xs ++ u :: rest) e (tr ++ attemptPair x) by
      obtain ⟨e, he⟩ := hstep
      constructor
      · intro h
        rw [he, (ih hxs e (tr ++ attemptPair x)).1 h]
        simp [attemptsOf, attemptPair, List.append_assoc]
      · intro hf h
        rw [he, (ih hxs e (tr ++ attemptPair x)).2 hf h]
        simp [attemptsOf, attemptPair, List.append_assoc]
    rcases hxt : world x .tool with d' | n | m
    · exact absurd (hxt ▸ hx1) (by simp [attemptOk])
    · rcases hxp : world x .prompt with d'' | n' | m'
      · exact absurd (hxp ▸ hx2) (by simp [attemptOk])
      · exact ⟨some (promptStatusMsg n'), by
          rw [List.cons_append]
          simp [resolveGo, hxt, hxp, attemptPair]⟩
      · exact ⟨some m', by
          rw [List.cons_append]
          simp [resolveGo, hxt, hxp, attemptPair]⟩
    · rcases hxp : world x .prompt with d'' | n' | m'
      · exact absurd (hxp ▸ hx2) (by simp [attemptOk])
      · exact ⟨some (promptStatusMsg n'), by
          rw [List.cons_append]
          simp [resolveGo, hxt, hxp, attemptPair]⟩
      · exact ⟨some m', by
          rw [List.cons_append]
          simp [resolveGo, hxt, hxp, attemptPair]⟩


/-- Witness for `resolver_short_circuits_on_first_success`: with
candidates [a, b, c], a failing on both variants and b succeeding on the
tool variant, the resolver returns b's payload and c is never attempted. -/
theorem resolver_short_circuits_on_first_success_witness :
    resolveGo wShortCircuit [str "http://a", str "http://b", str "http://c"] none []
      = (.success (str "payload B"),
         [(str "http://a", .tool), (str "http://a", .prompt),
          (str "http://b", .tool)]) := by
  have h := (resolver_short_circuits_on_first_success wShortCircuit (str "http://b")
    (str "payload B") [str "http://c"] [str "http://a"] (by decide) none []).1
    (by decide)
  exact h.trans (by decide)


/-- Claim C3 (amended): when every candidate address and protocol variant
fails, the search route's boundary response carries the informational
payload `{error, mock: true, answer: troubleshooting text}` — a body, not
a bare failure — but with HTTP status 500, not 200. -/
theorem search_total_failure_mock_payload
    (query : List Char) (env : Option (List Char)) (world : SearchWorld)
    (hq : query ≠ [])
    (hall : ∀ u ∈ urlsToTry env, attemptOk (world u .tool) = false ∧
      attemptOk (world u .prompt) = false) :
    perplexitySearch .POST query env world
      = ⟨500,
         .mockFailure (searchErrorField (localhostFailMsg world)) true
           (troubleshootingAnswer env (localhostFailMsg world)),
         attemptsOf (urlsToTry env)⟩ := by
  obtain ⟨c, cs, rfl⟩ := List.exists_cons_of_ne_nil hq
  have h := resolveGo_allFail world (urlsToTry env) hall none []
  have hlast : (urlsToTry env).getLast? = some (str "http://localhost:3500") := by
    cases env <;> rfl
  rw [lastPromptErr_getLast world (urlsToTry env) none _ hlast] at h
  simp only [perplexitySearch, List.isEmpty_cons, Bool.false_eq_true, if_false]
  rw [h]
  rfl

/-- Witness for `search_total_failure_mock_payload` at a concrete
all-failing world. -/
theorem search_total_failure_mock_payload_witness :
    (perplexitySearch .POST (str "best ssd") none wAllFail).status = 500 ∧
    isMockBody (perplexitySearch .POST (str "best ssd") none wAllFail).body
      = true := by
  have h := search_total_failure_mock_payload (str "best ssd") none wAllFail
    (by decide) (by decide)
  rw [h]
  exact ⟨rfl, rfl⟩

/-! ## Asset proxy theorems -/

/-- Claim C8: with a successful upstream response, the proxy rejects every
payload under the 100-byte plausibility threshold with a 500
`Invalid image data received` error regardless of declared content type,
and serves an above-threshold payload as 200 raw bytes with the declared
content type forwarded unchanged. -/
theorem asset_validator_threshold_and_type_passthrough
    (backend p statusText : List Char) (now status len : Nat)
    (ct : Option (List Char)) (hok : jsOk status = true) :
    (len < 100 →
      (proxyImage .GET (some p) backend now
          (fun _ => .resp status statusText ct len)).status = 500 ∧
      (proxyImage .GET (some p) backend now
          (fun _ => .resp status statusText ct len)).body
        = .jsonMessage (str "Invalid image data received")) ∧
    (∀ ctv, ct = some ctv → 100 ≤ len →
      proxyImage .GET (some p) backend now (fun _ => .resp status statusText ct len)
        = ⟨200, (str "Content-Type", ctv) :: cacheHeaders, .bytes len,
           some (cacheBustedUrl backend (cleanPath p) now)⟩) := by
  constructor
  · intro hlen
    constructor <;> simp [proxyImage, hok, hlen]
  · intro ctv hct hlen
    subst hct
    simp [proxyImage, hok, Nat.not_lt.mpr hlen]

/-- Witness for `asset_validator_threshold_and_type_passthrough`: a
50-byte `image/png` payload is rejected, a 10000-byte one is served with
its declared type. -/
theorem asset_validator_threshold_and_type_passthrough_witness :
    (proxyImage .GET (some (str "/img/a.png")) (str "http://backend:8000") 7
        (fun _ => .resp 200 (str "OK") (some (str "image/png")) 50)).status = 500 ∧
    (proxyImage .GET (some (str "/img/a.png")) (str "http://backend:8000") 7
        (fun _ => .resp 200 (str "OK") (some (str "image/png")) 50)).body
      = .jsonMessage (str "Invalid image data received") ∧
    proxyImage .GET (some (str "/img/a.png")) (str "http://backend:8000") 7
        (fun _ => .resp 200 (str "OK") (some (str "image/png")) 10000)
      = ⟨200, (str "Content-Type", str "image/png") :: cacheHeaders, .bytes 10000,
         some (cacheBustedUrl (str "http://backend:8000")
           (cleanPath (str "/img/a.png")) 7)⟩ := by
  have h1 := (asset_validator_threshold_and_type_passthrough (str "http://backend:8000")
    (str "/img/a.png") (str "OK") 7 200 50 (some (str "image/png"))
    (by decide)).1 (by decide)
  have h2 := (asset_validator_threshold_and_type_passthrough (str "http://backend:8000")
    (str "/img/a.png") (str "OK") 7 200 10000 (some (str "image/png"))
    (by decide)).2 (str "image/png") rfl (by decide)
  exact ⟨h1.1, h1.2, h2⟩

/-- Claim C9 (amended): a successful GET response carries the mirrored
`Content-Type` (defaulting to `image/png`) together with the three
cache-disabling headers, but a successful HEAD response carries only the
`Content-Type` header — the cache-disabling headers are set on the GET
path alone. -/
theorem asset_headers_get_full_head_content_type_only
    (backend p statusText : List Char) (now status len : Nat)
    (ct : Option (List Char)) (hok : jsOk status = true) (hlen : 100 ≤ len) :
    (proxyImage .GET (some p) backend now
        (fun _ => .resp status statusText ct len)).headers
      = (str "Content-Type", ct.getD (str "image/png")) :: cacheHeaders ∧
    (proxyImage .HEAD (some p) backend now
        (fun _ => .resp status statusText ct len)).headers
      = [(str "Content-Type", ct.getD (str "image/png"))] := by
  constructor <;> simp [proxyImage, hok, Nat.not_lt.mpr hlen]

/-- Witness for `asset_headers_get_full_head_content_type_only` at a
concrete upstream response. -/
theorem asset_headers_get_full_head_content_type_only_witness :
    (proxyImage .GET (some (str "/img/a.png")) (str "http://backend:8000") 7
        (fun _ => .resp 200 (str "OK") (some (str "image/png")) 10000)).headers
      = [(str "Content-Type", str "image/png"),
         (str "Cache-Control", str "no-cache, no-store, must-revalidate"),
         (str "Pragma", str "no-cache"), (str "Expires", str "0")] ∧
    (proxyImage .HEAD (some (str "/img/a.png")) (str "http://backend:8000") 7
        (fun _ => .resp 200 (str "OK") (some (str "image/png")) 10000)).headers
      = [(str "Content-Type", str "image/png")] := by
  have h := asset_headers_get_full_head_content_type_only (str "http://backend:8000")
    (str "/img/a.png") (str "OK") 7 200 10000 (some (str "image/png"))
    (by decide) (by decide)
  exact ⟨h.1.trans (by decide), h.2.trans (by decide)⟩

/-! ## Injectivity of the decimal cache-busting token -/


/-- The fuel-based core renderer agrees with `decimalChars` whenever the
fuel suffices. -/
theorem toDigitsCore_eq_decimalChars (fuel : Nat) :
    ∀ (n : Nat) (ds : List Char), n < fuel →
      Nat.toDigitsCore 10 fuel n ds = decimalChars n ++ ds := by
  induction fuel with
  | zero => intro n ds h; omega
  | succ fuel ih =>
    intro n ds h
    by_cases h10 : n / 10 = 0
    · have hn : n < 10 := by omega
      have hdc : decimalChars n = [Nat.digitChar n] := by
        rw [decimalChars]
        exact dif_pos hn
      simp only [Nat.toDigitsCore]
      rw [if_pos h10, Nat.mod_eq_of_lt hn, hdc]
      rfl
    · have hn : ¬ n < 10 := by omega
      have hrec := ih (n / 10) (Nat.digitChar (n % 10) :: ds) (by omega)
      have hdc : decimalChars n = decimalChars (n / 10) ++ [Nat.digitChar (n % 10)] := by
        rw [decimalChars]
        exact dif_neg hn
      simp only [Nat.toDigitsCore]
      rw [if_neg h10, hrec, hdc, List.append_assoc]
      rfl

/-- `natChars` is the repeated-division decimal rendering. -/
theorem natChars_eq_decimalChars (n : Nat) : natChars n = decimalChars n := by
  have h := toDigitsCore_eq_decimalChars (n + 1) n [] (by omega)
  simpa [natChars, Nat.toDigits] using h


theorem digitVal_digitChar (n : Nat) (h : n < 10) :
    digitVal (Nat.digitChar n) = n := by
  interval_cases n <;> decide

/-- Parsing the rendered digits back recovers the number. -/
theorem foldl_decimalChars (n : Nat) :
    ∀ a : Nat, (decimalChars n).foldl (fun acc c => 10 * acc + digitVal c) a
      = a * 10 ^ (decimalChars n).length + n := by
  induction n using Nat.strong_induction_on with
  | _ n ih =>
    intro a
    by_cases h : n < 10
    · simp [decimalChars, h, digitVal_digitChar n h, pow_one]
      omega
    · have h1 : n / 10 < n := Nat.div_lt_self (by omega) (by omega)
      rw [show decimalChars n
          = decimalChars (n / 10) ++ [Nat.digitChar (n % 10)] from by
        rw [decimalChars]
        simp [h]]
      rw [List.foldl_append, ih (n / 10) h1 a]
      have hd : digitVal (Nat.digitChar (n % 10)) = n % 10 :=
        digitVal_digitChar (n % 10) (Nat.mod_lt n (by omega))
      have hdm : 10 * (n / 10) + n % 10 = n := Nat.div_add_mod n 10
      simp only [List.foldl_cons, List.foldl_nil, List.length_append,
        List.length_cons, List.length_nil, hd]
      calc 10 * (a * 10 ^ (decimalChars (n / 10)).length + n / 10) + n % 10
          = a * (10 ^ (decimalChars (n / 10)).length * 10)
              + (10 * (n / 10) + n % 10) := by ring
        _ = a * 10 ^ ((decimalChars (n / 10)).length + 1) + n := by
            rw [hdm, pow_succ]

/-- Distinct numbers render to distinct decimal strings. -/
theorem natChars_inj {m n : Nat} (h : natChars m = natChars n) : m = n := by
  rw [natChars_eq_decimalChars, natChars_eq_decimalChars] at h
  have hm := foldl_decimalChars m 0
  have hn := foldl_decimalChars n 0
  rw [h] at hm
  simp only [Nat.zero_mul, Nat.zero_add] at hm hn
  exact hm.symm.trans hn

/-- Claim C7 (amended): two sequential AssetProxy calls for the same
`imagePath` that observe distinct millisecond clock readings produce
distinct upstream references — the URLs differ exactly in the
cache-defeating `t` token.  (Calls within the same millisecond, as the
counterexample shows, produce identical references.) -/
theorem asset_proxy_distinct_clocks_distinct_references
    (backend p : List Char) (n1 n2 : Nat) (h : n1 ≠ n2) :
    cacheBustedUrl backend (cleanPath p) n1
      ≠ cacheBustedUrl backend (cleanPath p) n2 := by
  intro he
  apply h
  apply natChars_inj
  simp only [cacheBustedUrl, List.append_assoc] at he
  exact List.append_cancel_left (List.append_cancel_left (List.append_cancel_left he))

/-- Witness for `asset_proxy_distinct_clocks_distinct_references` at two
adjacent millisecond readings. -/
theorem asset_proxy_distinct_clocks_distinct_references_witness :
    cacheBustedUrl (str "http://backend:8000") (cleanPath (str "/img/a.png"))
        1700000000000
      ≠ cacheBustedUrl (str "http://backend:8000") (cleanPath (str "/img/a.png"))
        1700000000001 :=
  asset_proxy_distinct_clocks_distinct_references (str "http://backend:8000")
    (str "/img/a.png") 1700000000000 1700000000001 (by decide)

/-- Claim C7 (counterexample): the cache-defeating token is the
millisecond clock reading and nothing else, so a second sequential call
for the same `imagePath` within the same millisecond fetches the
byte-identical upstream reference
`http://backend:8000/static/images/item.png?t=1700000000000`. -/
theorem asset_proxy_same_millisecond_same_reference :
    (proxyImage .GET (some (str "/static/images/item.png"))
        (str "http://backend:8000") 1700000000000 wImgOk).fetchedUrl
      = some (str "http://backend:8000/static/images/item.png?t=1700000000000") := by
  decide

/-- Claim C9 (counterexample): a successful HEAD response carries only the
mirrored `Content-Type` header — none of the cache-disabling headers that
GET responses get. -/
theorem head_success_lacks_cache_headers :
    (proxyImage .HEAD (some (str "/static/images/item.png"))
        (str "http://backend:8000") 5 wImgOk).headers
      = [(str "Content-Type", str "image/png")] ∧
    List.lookup (str "Cache-Control")
      (proxyImage .HEAD (some (str "/static/images/item.png"))
        (str "http://backend:8000") 5 wImgOk).headers = none := by decide

/-! ## Chunk-boundary independence of the client-side buffered decoder

These theorems establish that the buffered decoder in `part_003` — the
codec the spec's section 4.1 describes — really is chunk-boundary
independent, which is the property claim C1 states and which the relay's
unbuffered loop violates. -/

theorem splitNN_ne_nil : ∀ l : List Char, splitNN l ≠ []
  | [] => by simp [splitNN]
  | [c] => by simp [splitNN]
  | c :: c2 :: rest => by
    simp only [splitNN]
    by_cases hc : c = '\n' ∧ c2 = '\n'
    · simp [hc]
    · rw [if_neg hc]
      rcases hs : splitNN (c2 :: rest) with _ | ⟨a, as⟩ <;> simp

theorem splitNN_singleton : ∀ (l a : List Char), splitNN l = [a] → a = l
  | [], a, h => by
    simp only [splitNN] at h
    injection h with h1
    exact h1.symm
  | [c], a, h => by
    simp only [splitNN] at h
    injection h with h1
    exact h1.symm
  | c :: c2 :: rest, a, h => by
    by_cases hc : c = '\n' ∧ c2 = '\n'
    · rw [splitNN, if_pos hc] at h
      injection h with h1 h2
      exact absurd h2 (splitNN_ne_nil rest)
    · rw [splitNN, if_neg hc] at h
      rcases hs : splitNN (c2 :: rest) with _ | ⟨b, bs⟩
      · exact absurd hs (splitNN_ne_nil _)
      · rw [hs] at h
        injection h with h1 h2
        subst h2
        have hb := splitNN_singleton (c2 :: rest) b hs
        rw [← h1, hb]

theorem getLastD_irrel {α : Type} (l : List α) (h : l ≠ []) (d d2 : α) :
    l.getLastD d = l.getLastD d2 := by
  rw [List.getLastD_eq_getLast?, List.getLastD_eq_getLast?]
  cases hgl : l.getLast? with
  | none => exact absurd (List.getLast?_eq_none_iff.mp hgl) h
  | some a => rfl

theorem getLastD_append_of_ne_nil {α : Type} (A B : List α) (h : B ≠ []) (d : α) :
    (A ++ B).getLastD d = B.getLastD d := by
  rw [List.getLastD_eq_getLast?, List.getLastD_eq_getLast?, List.getLast?_append]
  cases hb : B.getLast? with
  | none => exact absurd (List.getLast?_eq_none_iff.mp hb) h
  | some a => rfl

/-- The splitting lemma behind carry-over buffering: splitting `x ++ y` is
splitting `x`, keeping its trailing part as a buffer, and splitting that
buffer extended by `y`. -/
theorem splitNN_append : ∀ (x y : List Char),
    splitNN (x ++ y)
      = (splitNN x).dropLast ++ splitNN ((splitNN x).getLastD [] ++ y)
  | [], y => by simp [splitNN]
  | [c], y => by simp [splitNN]
  | c :: c2 :: rest, y => by
    by_cases hc : c = '\n' ∧ c2 = '\n'
    · have hx : splitNN (c :: c2 :: rest) = [] :: splitNN rest := by
        rw [splitNN, if_pos hc]
      have hL : splitNN ((c :: c2 :: rest) ++ y) = [] :: splitNN (rest ++ y) := by
        rw [List.cons_append, List.cons_append, splitNN, if_pos hc]
      have hne := splitNN_ne_nil rest
      rw [hL, hx, splitNN_append rest y, List.dropLast_cons_of_ne_nil hne,
        List.getLastD_cons]
      simp
    · have hne := splitNN_ne_nil (c2 :: rest)
      rcases hs : splitNN (c2 :: rest) with _ | ⟨a, as⟩
      · exact absurd hs hne
      have hx : splitNN (c :: c2 :: rest) = (c :: a) :: as := by
        rw [splitNN, if_neg hc, hs]
      have hIH := splitNN_append (c2 :: rest) y
      rw [hs] at hIH
      cases as with
      | nil =>
        have ha : a = c2 :: rest := splitNN_singleton (c2 :: rest) a hs
        rw [hx]
        subst ha
        simp
      | cons b bs =>
        rw [List.cons_append] at hIH
        simp only [List.dropLast_cons₂, List.getLastD_cons, List.cons_append] at hIH
        have hL : splitNN ((c :: c2 :: rest) ++ y)
            = (c :: a) :: ((b :: bs).dropLast
                ++ splitNN (bs.getLastD b ++ y)) := by
          rw [List.cons_append, List.cons_append, splitNN, if_neg hc, hIH]
        have hg : ((c :: a) :: b :: bs).getLastD [] = bs.getLastD b := by
          rw [List.getLastD_cons, List.getLastD_cons]
        rw [hL, hx, hg]
        simp [List.dropLast_cons₂]

/-- Running the buffered loop from any intermediate state over a non-empty
chunk list behaves as if the buffer and all chunks arrived as one block. -/
theorem clientRun_go : ∀ (cs : List (List Char)) (ms : List (List Char))
    (buf : List Char), cs ≠ [] →
    cs.foldl clientStep (ms, buf)
      = (ms ++ (splitNN (buf ++ cs.flatten)).dropLast,
         (splitNN (buf ++ cs.flatten)).getLastD []) := by
  intro cs
  induction cs with
  | nil => intro ms buf h; exact absurd rfl h
  | cons c cs ih =>
    intro ms buf _
    cases cs with
    | nil => simp [clientStep]
    | cons c2 cs2 =>
      have hstep : clientStep (ms, buf) c
          = (ms ++ (splitNN (buf ++ c)).dropLast,
             (splitNN (buf ++ c)).getLastD []) := rfl
      rw [List.foldl_cons, hstep, ih _ _ (by simp)]
      have hsp := splitNN_append (buf ++ c) ((c2 :: cs2).flatten)
      have hne := splitNN_ne_nil
        ((splitNN (buf ++ c)).getLastD [] ++ (c2 :: cs2).flatten)
      have hflat : buf ++ (c :: c2 :: cs2).flatten
          = (buf ++ c) ++ (c2 :: cs2).flatten := by
        simp [List.append_assoc]
      rw [hflat, hsp,
        List.dropLast_append_of_ne_nil _ hne,
        getLastD_append_of_ne_nil _ _ hne]
      simp [List.append_assoc]

/-- Chunk-boundary independence of the buffered client decoder: decoding
any chunking of a byte stream emits the same complete messages and leaves
the same trailing buffer as decoding the whole stream as one chunk. -/
theorem clientRun_chunk_boundary_independent (chunks : List (List Char)) :
    clientRun chunks = clientRun [chunks.flatten] := by
  cases chunks with
  | nil => rfl
  | cons c cs =>
    rw [clientRun, clientRun, clientRun_go (c :: cs) [] [] (by simp),
      clientRun_go [(c :: cs).flatten] [] [] (by simp)]
    simp

/-- Chunk-boundary independence at the frame level: for every upstream
byte stream, the frames the buffered client decoder yields are the same
for every chunking of that stream — exactly the property the spec states
for FrameCodec, satisfied by the client decoder (and violated by the
relay's unbuffered loop, see `relay_decode_is_chunk_boundary_dependent`). -/
theorem clientFrames_chunk_boundary_independent (chunks : List (List Char)) :
    clientFrames chunks = clientFrames [chunks.flatten] := by
  rw [clientFrames, clientFrames, clientRun_chunk_boundary_independent]

-- The exact input on which the relay's unbuffered loop fails is handled
-- correctly by the buffered client decoder: both chunkings yield the one
-- frame.
example :
    clientFrames [str "da", str "ta: \x7b\"chunk\":\"hi\"\x7d\n\n"]
      = [str "\x7b\"chunk\":\"hi\"\x7d"] ∧
    clientFrames [str "data: \x7b\"chunk\":\"hi\"\x7d\n\n"]
      = [str "\x7b\"chunk\":\"hi\"\x7d"] := by decide
